import Mathlib

/-!
Verification of the near_hackathon backend: the forge workflow engine
(`services/forge_service.py`), the code validator (`utils/code_validator.py`),
the session bookkeeping (`services/session_service.py`) and the tool registry
(`utils/tool_registry.py`), shallowly embedded in Lean.

External collaborators (the Python `ast` stdlib parser, the LLM oracle, the
filesystem) are modelled as explicit parameters or small concrete oracles;
everything else is translated from the Python source.
-/

namespace Forge

/-! ### Character-list string utilities

Python string operations used by the source, implemented structurally over
`List Char` so that all proofs evaluate inside the kernel.  All separators
used by the source (`"\n"`, `"/"`, `"."`, `" "`) are single characters, so a
single-character split/join suffices and matches Python `str.split(sep)` /
`sep.join` semantics exactly. -/

def startsL : List Char → List Char → Bool
  | _, [] => true
  | [], _ :: _ => false
  | a :: as, b :: bs => a == b && startsL as bs

def containsL (needle : List Char) : List Char → Bool
  | [] => needle.isEmpty
  | c :: rest => startsL (c :: rest) needle || containsL needle rest

def splitChar (c : Char) : List Char → List (List Char)
  | [] => [[]]
  | ch :: rest =>
      let r := splitChar c rest
      if ch == c then [] :: r
      else
        match r with
        | [] => [[ch]]
        | h :: t => (ch :: h) :: t

def joinChar (c : Char) : List (List Char) → List Char
  | [] => []
  | [l] => l
  | l :: ls => l ++ c :: joinChar c ls

def trimL (l : List Char) : List Char :=
  ((l.dropWhile Char.isWhitespace).reverse.dropWhile Char.isWhitespace).reverse

/-- Python `needle in hay` (substring containment). -/
def strContains (hay needle : String) : Bool := containsL needle.data hay.data

/-- Python `hay.startswith(needle)`. -/
def strStarts (hay needle : String) : Bool := startsL hay.data needle.data

/-- Python `hay.endswith(needle)`. -/
def strEnds (hay needle : String) : Bool :=
  startsL hay.data.reverse needle.data.reverse

/-- Python `s.split(c)` for a single-character separator. -/
def strSplit (c : Char) (s : String) : List String :=
  (splitChar c s.data).map String.mk

/-- Python `c.join(l)` for a single-character separator. -/
def strJoin (c : Char) (l : List String) : String :=
  String.mk (joinChar c (l.map String.data))

/-- Python `s.lower()` (ASCII, which is all the source ever feeds it). -/
def strLower (s : String) : String := String.mk (s.data.map Char.toLower)

/-- Python `s.strip()`. -/
def strTrim (s : String) : String := String.mk (trimL s.data)

/-- Python `len(s)` (number of code points). -/
def strLen (s : String) : Nat := s.data.length

/-! ### Python `dict` model

Python 3.7+ dicts preserve insertion order; assignment to an existing key
keeps its position, assignment to a new key appends.  A dict is modelled as
an association list in insertion order. -/

def dictHasKey {α : Type} (t : List (String × α)) (k : String) : Bool :=
  t.any (fun e => e.1 == k)

def dictInsert {α : Type} (t : List (String × α)) (k : String) (v : α) :
    List (String × α) :=
  if dictHasKey t k then t.map (fun e => if e.1 == k then (k, v) else e)
  else t ++ [(k, v)]

def dictFind {α : Type} (t : List (String × α)) (k : String) : Option α :=
  (t.find? (fun e => e.1 == k)).map (fun e => e.2)

def dictUpdate {α : Type} (t : List (String × α)) (k : String) (f : α → α) :
    List (String × α) :=
  t.map (fun e => if e.1 == k then (e.1, f e.2) else e)

/-- Python dict of file path → source text (`template_code`). -/
abbrev TemplateCode := List (String × String)

/-! ### Code validator (`utils/code_validator.py`)

The Python `ast` standard-library parser is an external collaborator: it is
modelled as a function `parse : String → ParseResult` returning the nodes
relevant to imports that `ast.walk` would yield, a syntax error, or a
non-`SyntaxError` crash (e.g. `ValueError` on null bytes). -/

structure CodeValidationError where
  file_path : String
  error_type : String
  message : String
  line_number : Option Nat
deriving DecidableEq, Repr

/-- The import statements `ast.walk` yields: `ast.Import` carries the dotted
names of its aliases, `ast.ImportFrom` carries the relative level and the
module text (`node.module or ""`). -/
inductive ImportNode where
  | imp (names : List String) (lineno : Nat)
  | impFrom (level : Nat) (module : String) (lineno : Nat)
deriving DecidableEq, Repr

inductive ParseResult where
  | ok (nodes : List ImportNode)
  | syntaxError (msg : String) (lineno : Option Nat)
  | crash (msg : String)
deriving DecidableEq, Repr

/-- `CodeValidator._validate_syntax`: a `SyntaxError` is reported with its
message and line, any other exception as `Unexpected error: ...`. -/
def validate_syntax (parse : String → ParseResult) (file_path code : String) :
    List CodeValidationError :=
  match parse code with
  | .ok _ => []
  | .syntaxError m l => [⟨file_path, "syntax", m, l⟩]
  | .crash m => [⟨file_path, "syntax", "Unexpected error: " ++ m, none⟩]

/-- `CodeValidator._resolve_relative_import`. -/
def resolve_relative_import (file_path : String) (level : Nat)
    (module_name : String) : Option String :=
  if module_name == "" then none
  else
    let file_dir := strJoin '/' ((strSplit '/' file_path).dropLast)
    let parts := strSplit '/' file_dir
    if level > parts.length then none
    else
      let parent_dir :=
        if level > 0 then strJoin '/' (parts.take (parts.length - level))
        else file_dir
      some (parent_dir ++ "/" ++ module_name ++ ".py")

/-- The per-node body of the `ast.walk` loop in
`CodeValidator._validate_imports`. -/
def checkImportNode (file_path : String) (template_code : TemplateCode) :
    ImportNode → List CodeValidationError
  | .imp names lineno =>
      names.foldl (fun acc module_name =>
        if strStarts module_name "." then
          if strStarts file_path "tools/" && strContains module_name ".base" then
            if !(dictHasKey template_code "tools/base.py") then
              acc ++ [⟨file_path, "import",
                "Relative import \x27" ++ module_name ++
                  "\x27 cannot be resolved: base.py not found in tools directory",
                some lineno⟩]
            else acc
          else acc
        else acc) []
  | .impFrom level module_name lineno =>
      if level > 0 then
        let dots := String.mk (List.replicate level '.')
        let e1 :=
          if strStarts file_path "tools/" && strContains module_name "base" then
            if !(dictHasKey template_code "tools/base.py") then
              [⟨file_path, "import",
                "Relative import \x27from " ++ dots ++ module_name ++
                  "\x27 cannot be resolved: base.py not found",
                some lineno⟩]
            else []
          else []
        let e2 :=
          match resolve_relative_import file_path level module_name with
          | some p =>
              if !(dictHasKey template_code p) then
                [⟨file_path, "import",
                  "Relative import \x27from " ++ dots ++ module_name ++
                    "\x27 cannot be resolved: " ++ p ++ " not found",
                  some lineno⟩]
              else []
          | none => []
        e1 ++ e2
      else
        if strStarts file_path "tools/" && strStarts module_name "tools." then
          let tool_name := (strSplit '.' module_name).getLastD ""
          let tool_path := "tools/" ++ tool_name ++ ".py"
          if !(dictHasKey template_code tool_path) && tool_name != "__init__" then
            [⟨file_path, "import",
              "Import \x27" ++ module_name ++ "\x27 cannot be resolved: " ++
                tool_path ++ " not found",
              some lineno⟩]
          else []
        else []

/-- `CodeValidator._validate_imports`: re-parse, walk the import nodes, and
convert any exception into a single `import` error. -/
def validate_imports (parse : String → ParseResult) (file_path code : String)
    (template_code : TemplateCode) : List CodeValidationError :=
  match parse code with
  | .ok nodes => nodes.foldl (fun acc n => acc ++ checkImportNode file_path template_code n) []
  | .syntaxError m _ => [⟨file_path, "import", "Error validating imports: " ++ m, none⟩]
  | .crash m => [⟨file_path, "import", "Error validating imports: " ++ m, none⟩]

/-- `CodeValidator.validate_code`: syntax first; imports only when the syntax
check produced no errors. -/
def validate_code (parse : String → ParseResult) (file_path code : String)
    (template_code : TemplateCode) : List CodeValidationError :=
  let syntax_errors := validate_syntax parse file_path code
  if syntax_errors.isEmpty then
    syntax_errors ++ validate_imports parse file_path code template_code
  else syntax_errors

/-- The `for file_path, code in template_code.items()` loop of
`CodeValidator.validate_template`, with the whole template fixed. -/
def validateTemplateAux (parse : String → ParseResult)
    (template_code : TemplateCode) : TemplateCode → List CodeValidationError
  | [] => []
  | (file_path, code) :: rest =>
      (if strEnds file_path ".py" then
        validate_code parse file_path code template_code
      else []) ++ validateTemplateAux parse template_code rest

/-- `CodeValidator.validate_template`. -/
def validate_template (parse : String → ParseResult)
    (template_code : TemplateCode) : List CodeValidationError :=
  validateTemplateAux parse template_code template_code

/-- Lexicographic order on strings (used only to state ordering claims). -/
def leChars : List Char → List Char → Bool
  | [], _ => true
  | _ :: _, [] => false
  | a :: as, b :: bs => if a == b then leChars as bs else a.toNat < b.toNat

def strLe (a b : String) : Bool := leChars a.data b.data

/-- Behaviour of the external `ast.parse` / `ast.walk` collaborator on the
concrete source snippets used in this development, matching CPython: plain
assignments parse with no import nodes, an unclosed parenthesis raises
`SyntaxError`, a null byte raises `ValueError` (not a `SyntaxError`), and an
imported module shows up as its `ast.Import` / `ast.ImportFrom` node. -/
def pyParse : String → ParseResult
  | "import b" => .ok [.imp ["b"] 1]
  | "from tools.b import x" => .ok [.impFrom 0 "tools.b" 1]
  | "x = 1" => .ok []
  | "def f(" => .syntaxError "\x27(\x27 was never closed" (some 1)
  | "def g(" => .syntaxError "\x27(\x27 was never closed" (some 1)
  | "\x00" => .crash "source code string cannot contain null bytes"
  | _ => .ok []

/-! ### Tool registry (`utils/tool_registry.py`)

The registry state: the platform tools directory (a `.py` file is a pair of
its stem and its text; for a `.py` file the file name is always
`stem ++ ".py"`, so `tool_file.name != "__init__.py"` is `stem != "__init__"`),
and the `temp_tools` dict mapping user id to their AI-generated tool dicts.
The consumed keys of a tool dict are `name`, `code` and `description`, each read
with `.get(key, "")`. -/

structure Tool where
  name : String
  code : String
  description : String
deriving DecidableEq, Repr

structure ToolRegistry where
  platform_tools : List (String × String)
  temp_tools : List (String × List Tool)
deriving DecidableEq, Repr

/-- All temp tools in dict iteration order (`self.temp_tools.values()`). -/
def regTempAll (r : ToolRegistry) : List Tool :=
  (r.temp_tools.map (fun e => e.2)).flatten

/-- `ToolRegistry.get_tool_code`: platform files first (skipping
`__init__.py`), then temp tools of every user, else `ValueError`. -/
def get_tool_code (r : ToolRegistry) (tool_name : String) : Except String String :=
  match r.platform_tools.find? (fun f => f.1 == tool_name && f.1 != "__init__") with
  | some f => .ok f.2
  | none =>
      match (regTempAll r).find? (fun t => t.name == tool_name) with
      | some t => .ok t.code
      | none => .error ("Tool " ++ tool_name ++ " not found")

/-- `ToolRegistry.add_temp_tool`. -/
def add_temp_tool (r : ToolRegistry) (user_id : String) (tool : Tool) : ToolRegistry :=
  { r with temp_tools :=
      if dictHasKey r.temp_tools user_id then
        dictUpdate r.temp_tools user_id (fun ts => ts ++ [tool])
      else r.temp_tools ++ [(user_id, [tool])] }

/-- `ToolRegistry.list_tools`: platform `*.py` files except `__init__.py` and
`base.py` (docstring extraction `_extract_docstring` is abstracted as
`docOf`), plus the temp tools of the caller when a `user_id` is given. -/
def list_tools (docOf : String → String) (r : ToolRegistry) (user_id : String) :
    List Tool :=
  (r.platform_tools.filter (fun f => !(f.1 == "__init__" || f.1 == "base"))).map
      (fun f => ⟨f.1, f.2, docOf f.2⟩) ++
    (if user_id != "" then
      match dictFind r.temp_tools user_id with
      | some ts => ts.map (fun t => ⟨t.name, t.code, t.description⟩)
      | none => []
    else [])

/-! ### Forge workflow state (`utils/schemas.py: ForgeState`) -/

structure QA where
  question : String
  answer : String
deriving DecidableEq, Repr

/-- `tool_changes` dict: `{"add": [...], "remove": [...], "reason": ...}`. -/
structure ToolChanges where
  add : List String
  remove : List String
  reason : String
deriving DecidableEq, Repr

/-- `agent_config` dict; the engine reads `user_id`, `agent_id`,
`wants_custom_tools` and writes `summary`.  A missing string key reads as
`""` (the `.get(..., default)` / falsy conventions of the source). -/
structure AgentConfig where
  user_id : String
  agent_id : String
  wants_custom_tools : Bool
  summary : String
deriving DecidableEq, Repr

structure ForgeState where
  session_id : String
  user_message : String
  chat_history : List (List (String × String))
  selected_tools : List Tool
  agent_config : AgentConfig
  generated_tools : List Tool
  logic_code : String
  agent_id : String
  current_step : String
  waiting_for_input : Bool
  waiting_stage : String
  template_code : TemplateCode
  code_errors : List CodeValidationError
  user_clarifications : List QA
  tool_changes : ToolChanges
  agent_dir_path : String
  custom_tool_requirements : String
  finalize : Bool
  docker_tag : String
deriving DecidableEq, Repr

/-! ### Stage functions (`services/forge_service.py`)

Filesystem writes mirror `template_code` and are not part of the state; the
existence of `utils/tools_storage/base.py` is the parameter `base` (its text
when present), and the tool registry is passed explicitly. -/

/-- `ForgeService._update_tools_state`. -/
def update_tools_state (s : ForgeState) : ForgeState :=
  { s with waiting_for_input := false, waiting_stage := "",
           current_step := "tools_selected" }

/-- One iteration of the `for tool in state.get("selected_tools", [])` loop of
`ForgeService._add_platform_tools`: an inline-code tool is written directly,
otherwise the registry is consulted and any exception is swallowed. -/
def addToolFile (reg : ToolRegistry) (template_code : TemplateCode) (tool : Tool) :
    TemplateCode :=
  if tool.code != "" then
    dictInsert template_code ("tools/" ++ strLower tool.name ++ ".py") tool.code
  else
    match get_tool_code reg tool.name with
    | .ok platform_code =>
        dictInsert template_code ("tools/" ++ strLower tool.name ++ ".py") platform_code
    | .error _ => template_code

/-- `ForgeService._add_platform_tools`. -/
def add_platform_tools (base : Option String) (reg : ToolRegistry)
    (s : ForgeState) : ForgeState :=
  let tc0 :=
    match base with
    | some base_content =>
        if !(dictHasKey s.template_code "tools/base.py") then
          dictInsert s.template_code "tools/base.py" base_content
        else s.template_code
    | none => s.template_code
  { s with template_code := s.selected_tools.foldl (addToolFile reg) tc0,
           current_step := "tools_added" }

/-- `ForgeService._should_wait_for_custom_tools`. -/
def should_wait_for_custom_tools (s : ForgeState) : Bool :=
  s.agent_config.wants_custom_tools

/-- `ForgeService._wait_for_custom_tools`. -/
def wait_for_custom_tools (s : ForgeState) : ForgeState :=
  { s with waiting_for_input := true, waiting_stage := "custom_tools",
           current_step := "waiting_for_custom_tools" }

/-- `ForgeService._wait_for_prompt`. -/
def wait_for_prompt (s : ForgeState) : ForgeState :=
  { s with waiting_for_input := true, waiting_stage := "prompt",
           current_step := "waiting_for_prompt" }

/-- `ForgeService._update_prompt_state`. -/
def update_prompt_state (s : ForgeState) : ForgeState :=
  { s with waiting_for_input := false, waiting_stage := "",
           current_step := "prompt_received" }

/-- `ForgeService._wait_for_clarification`. -/
def wait_for_clarification (s : ForgeState) : ForgeState :=
  { s with waiting_for_input := true, waiting_stage := "clarification",
           current_step := "waiting_for_clarification" }

/-- The fixed confirmation question of `ForgeService._clarify_intent`. -/
def confirmationQuestion : String := "Is everything in order to continue?"

/-- The question extraction of `ForgeService._clarify_intent`: only when the
LLM content mentions `questions`, every line containing `?` and longer than
10 characters is collected (stripped), in line order. -/
def extractQuestions (content : String) : List String :=
  if strContains (strLower content) "questions" then
    (strSplit '\n' content).foldl (fun acc line =>
      if strContains line "?" && strLen line > 10 then acc ++ [strTrim line]
      else acc) []
  else []

/-- The summary extraction of `ForgeService._clarify_intent`: the (stripped)
line after the first line mentioning `summary`, when such a successor line
exists. -/
def extractSummary : List String → String
  | [] => ""
  | [_] => ""
  | line :: next :: rest =>
      if strContains (strLower line) "summary" then strTrim next
      else extractSummary (next :: rest)

/-- `ForgeService._clarify_intent`, with the normalised LLM response text as
the oracle parameter `content`. -/
def clarify_intent (content : String) (s : ForgeState) : ForgeState :=
  let questions := extractQuestions content
  let summary :=
    if strContains (strLower content) "summary" then
      extractSummary (strSplit '\n' content)
    else ""
  let questions :=
    if !(strContains (strJoin ' ' questions) confirmationQuestion) then
      questions ++ [confirmationQuestion]
    else questions
  let questions :=
    if questions.isEmpty then
      ["Can you confirm the beneficiary details for the will?",
       "What should happen if you become inactive?",
       confirmationQuestion]
    else questions
  let s :=
    { s with user_clarifications := questions.map (fun q => ⟨q, ""⟩) }
  let s :=
    if summary != "" then
      { s with agent_config := { s.agent_config with summary := summary } }
    else s
  { s with current_step := "intent_clarified" }

/-- `ForgeService._update_clarification_state`. -/
def update_clarification_state (s : ForgeState) : ForgeState :=
  { s with waiting_for_input := false, waiting_stage := "",
           current_step := "clarification_received" }

/-- `ForgeService._has_tool_changes` (`"yes"` iff either list is non-empty). -/
def has_tool_changes (s : ForgeState) : Bool :=
  !(s.tool_changes.add.isEmpty && s.tool_changes.remove.isEmpty)

/-- `ForgeService._apply_tool_changes`: removals filter `selected_tools` by
exact name and delete the lower-cased workspace key when present; additions
look each name up (case-insensitively) in `list_tools()` — called with no
`user_id`, so platform tools only — and append the found record. -/
def apply_tool_changes (docOf : String → String) (reg : ToolRegistry)
    (s : ForgeState) : ForgeState :=
  let remove_tools := s.tool_changes.remove
  let s1 :=
    if !remove_tools.isEmpty then
      { s with
        selected_tools :=
          s.selected_tools.filter (fun t => !(remove_tools.contains t.name)),
        template_code :=
          remove_tools.foldl (fun tc tool_name =>
            let key := "tools/" ++ strLower tool_name ++ ".py"
            if dictHasKey tc key then tc.filter (fun e => e.1 != key) else tc)
            s.template_code }
    else s
  let add_tools := s.tool_changes.add
  let s2 :=
    if !add_tools.isEmpty then
      let tools_list := list_tools docOf reg ""
      { s1 with
        selected_tools :=
          add_tools.foldl (fun sel tool_name =>
            match tools_list.find?
                (fun t => strLower t.name == strLower tool_name) with
            | some t => sel ++ [t]
            | none => sel) s1.selected_tools }
    else s1
  { s2 with current_step := "tool_changes_applied" }

/-- `ForgeService._finalize_agent`: all registration side effects are
commented out in the source; only bookkeeping fields are set. -/
def finalize_agent (s : ForgeState) : ForgeState :=
  { s with current_step := "finalized", waiting_for_input := false }

/-! ### Endpoint handlers (`services/forge_service.py`)

Each `handle_*` loads the checkpointed state, mutates a copy, runs the stage
chain by hand and stores the result; returning the new state models
`update_state` followed by `get_state`. -/

/-- `ForgeService.handle_submit_tools`: applied unconditionally — the session
state is never checked against the expected pause stage. -/
def handle_submit_tools (base : Option String) (reg : ToolRegistry)
    (s : ForgeState) (tools : List Tool) : ForgeState :=
  let s1 := { s with selected_tools := tools, waiting_for_input := false }
  let s2 := add_platform_tools base reg (update_tools_state s1)
  if should_wait_for_custom_tools s2 then wait_for_custom_tools s2
  else wait_for_prompt s2

/-- `ForgeService.handle_submit_prompt`: record the prompt, then run
`_update_prompt_state`, `_clarify_intent` and `_wait_for_clarification`. -/
def handle_submit_prompt (content : String) (s : ForgeState) (prompt : String) :
    ForgeState :=
  let s1 := { s with user_message := prompt, waiting_for_input := false }
  wait_for_clarification (clarify_intent content (update_prompt_state s1))

/-- `ForgeService.handle_finalize_agent`. -/
def handle_finalize_agent (s : ForgeState) : ForgeState :=
  finalize_agent { s with finalize := true, waiting_for_input := false }

/-! ### Session bookkeeping (`services/session_service.py`)

`datetime.now().isoformat()` is the parameter `now`; `str(uuid.uuid4())` is
the parameter `fresh`. -/

structure SessionMeta where
  user_id : String
  created_at : String
  last_activity : String
deriving DecidableEq, Repr

structure SessionBook where
  user_sessions : List (String × String)
  session_metadata : List (String × SessionMeta)
deriving DecidableEq, Repr

/-- `SessionService.create_session`: reuse the mapped session of the user when it
is truthy and still has metadata (refreshing `last_activity`), otherwise mint
a fresh session id. -/
def create_session (now fresh : String) (b : SessionBook) (user_id : String) :
    String × SessionBook :=
  match dictFind b.user_sessions user_id with
  | some existing =>
      if existing != "" && dictHasKey b.session_metadata existing then
        (existing,
          { b with session_metadata :=
              (dictUpdate b.session_metadata existing
                (fun m => { m with last_activity := now })) })
      else
        (fresh,
          { user_sessions := dictInsert b.user_sessions user_id fresh,
            session_metadata :=
              dictInsert b.session_metadata fresh ⟨user_id, now, now⟩ })
  | none =>
      (fresh,
        { user_sessions := dictInsert b.user_sessions user_id fresh,
          session_metadata :=
            dictInsert b.session_metadata fresh ⟨user_id, now, now⟩ })

/-- `SessionService.get_user_session`. -/
def get_user_session (b : SessionBook) (user_id : String) : Option String :=
  dictFind b.user_sessions user_id

/-! ### Helper lemmas about the dict model -/

theorem find_map_replace {α : Type} (k : String) (v : α) :
    ∀ t : List (String × α), t.any (fun e => e.1 == k) = true →
      ((t.map (fun e => if e.1 == k then (k, v) else e)).find?
          (fun e => e.1 == k)).map (fun e => e.2) = some v := by
  intro t
  induction t with
  | nil => intro h; simp at h
  | cons e rest ih =>
      intro h
      by_cases he : e.1 = k
      · simp [he]
      · have hb : (e.1 == k) = false := by simp [he]
        rw [List.any_cons, hb, Bool.false_or] at h
        rw [List.map_cons, if_neg (by simp [hb])]
        rw [List.find?_cons_of_neg _ (by simp [hb])]
        exact ih h

theorem find_append_fresh {α : Type} (k : String) (v : α) :
    ∀ t : List (String × α), t.any (fun e => e.1 == k) = false →
      ((t ++ [(k, v)]).find? (fun e => e.1 == k)).map (fun e => e.2) = some v := by
  intro t
  induction t with
  | nil => intro _; simp
  | cons e rest ih =>
      intro h
      rw [List.any_cons, Bool.or_eq_false_iff] at h
      rw [List.cons_append, List.find?_cons_of_neg _ (by simp [h.1])]
      exact ih h.2

theorem dictFind_dictInsert_self {α : Type} (t : List (String × α)) (k : String)
    (v : α) : dictFind (dictInsert t k v) k = some v := by
  unfold dictInsert dictFind
  cases hk : dictHasKey t k with
  | true => exact find_map_replace k v t hk
  | false => exact find_append_fresh k v t hk

theorem dictHasKey_eq_isSome {α : Type} (t : List (String × α)) (k : String) :
    dictHasKey t k = (dictFind t k).isSome := by
  induction t with
  | nil => rfl
  | cons e rest ih =>
      unfold dictHasKey dictFind at ih ⊢
      by_cases he : e.1 = k
      · simp [he]
      · have hb : (e.1 == k) = false := by simp [he]
        rw [List.any_cons, hb, Bool.false_or,
          List.find?_cons_of_neg _ (by simp [hb])]
        exact ih

theorem dictHasKey_dictInsert_self {α : Type} (t : List (String × α)) (k : String)
    (v : α) : dictHasKey (dictInsert t k v) k = true := by
  rw [dictHasKey_eq_isSome, dictFind_dictInsert_self]
  rfl

theorem dictUpdate_keys {α : Type} (t : List (String × α)) (k : String)
    (f : α → α) : (dictUpdate t k f).map Prod.fst = t.map Prod.fst := by
  unfold dictUpdate
  rw [List.map_map]
  apply List.map_congr_left
  intro e _
  by_cases he : e.1 = k <;> simp [he]

theorem dictHasKey_keys {α : Type} (t : List (String × α)) (k : String) :
    dictHasKey t k = (t.map Prod.fst).any (fun x => x == k) := by
  induction t with
  | nil => rfl
  | cons e rest ih =>
      unfold dictHasKey at ih ⊢
      rw [List.map_cons, List.any_cons, List.any_cons, ih]

theorem dictHasKey_dictUpdate {α : Type} (t : List (String × α)) (k k' : String)
    (f : α → α) : dictHasKey (dictUpdate t k f) k' = dictHasKey t k' := by
  rw [dictHasKey_keys, dictHasKey_keys, dictUpdate_keys]

theorem dictInsert_keys {α : Type} (t : List (String × α)) (k : String) (v : α) :
    (dictInsert t k v).map Prod.fst =
      if dictHasKey t k then t.map Prod.fst else t.map Prod.fst ++ [k] := by
  unfold dictInsert
  cases hk : dictHasKey t k with
  | true =>
      show (t.map (fun e => if e.1 == k then (k, v) else e)).map Prod.fst =
        if True then t.map Prod.fst else t.map Prod.fst ++ [k]
      rw [if_pos trivial]
      rw [List.map_map]
      apply List.map_congr_left
      intro e _
      by_cases he : e.1 = k <;> simp [he]
  | false =>
      show (t ++ [(k, v)]).map Prod.fst =
        if False then t.map Prod.fst else t.map Prod.fst ++ [k]
      rw [if_neg (by simp)]
      simp

theorem not_mem_keys_of_not_hasKey {α : Type} (t : List (String × α))
    (k : String) (h : dictHasKey t k = false) : k ∉ t.map Prod.fst := by
  rw [dictHasKey_keys] at h
  intro hmem
  have hfalse := List.any_eq_false.mp h k hmem
  simp at hfalse

theorem nodup_keys_dictInsert {α : Type} (t : List (String × α)) (k : String)
    (v : α) (h : (t.map Prod.fst).Nodup) :
    ((dictInsert t k v).map Prod.fst).Nodup := by
  rw [dictInsert_keys]
  cases hk : dictHasKey t k with
  | true => exact h
  | false =>
      show (t.map Prod.fst ++ [k]).Nodup
      rw [List.nodup_append]
      refine ⟨h, List.nodup_singleton k, ?_⟩
      intro x hx hx'
      rw [List.mem_singleton] at hx'
      subst hx'
      exact not_mem_keys_of_not_hasKey t x hk hx

/-! ### Helper lemmas about the validator -/

theorem checkImportNode_keysOnly (fp : String) {t1 t2 : TemplateCode}
    (h : t1.map Prod.fst = t2.map Prod.fst) (n : ImportNode) :
    checkImportNode fp t1 n = checkImportNode fp t2 n := by
  have hk : ∀ k, dictHasKey t1 k = dictHasKey t2 k := by
    intro k
    rw [dictHasKey_keys, dictHasKey_keys, h]
  cases n with
  | imp names lineno => simp only [checkImportNode, hk]
  | impFrom level module lineno => simp only [checkImportNode, hk]

theorem validate_imports_keysOnly (parse : String → ParseResult)
    (fp code : String) {t1 t2 : TemplateCode}
    (h : t1.map Prod.fst = t2.map Prod.fst) :
    validate_imports parse fp code t1 = validate_imports parse fp code t2 := by
  unfold validate_imports
  cases parse code with
  | ok nodes =>
      have : (fun acc n => acc ++ checkImportNode fp t1 n) =
          (fun acc (n : ImportNode) => acc ++ checkImportNode fp t2 n) := by
        funext acc n
        rw [checkImportNode_keysOnly fp h n]
      rw [this]
  | syntaxError m l => rfl
  | crash m => rfl

theorem validate_code_keysOnly (parse : String → ParseResult)
    (fp code : String) {t1 t2 : TemplateCode}
    (h : t1.map Prod.fst = t2.map Prod.fst) :
    validate_code parse fp code t1 = validate_code parse fp code t2 := by
  unfold validate_code
  rw [validate_imports_keysOnly parse fp code h]

theorem validateTemplateAux_eq_flatten (parse : String → ParseResult)
    (tmpl : TemplateCode) :
    ∀ l : TemplateCode,
      validateTemplateAux parse tmpl l =
        (l.map (fun e =>
          if strEnds e.1 ".py" then validate_code parse e.1 e.2 tmpl
          else [])).flatten
  | [] => rfl
  | e :: rest => by
      simp only [validateTemplateAux, List.map_cons, List.flatten_cons,
        validateTemplateAux_eq_flatten parse tmpl rest]

/-! ### Claim C2: import-resolution round trip -/

/-- C2 counterexample: on `{"a.py": "import b"}` with no `b.py`, the
validator reports no error at all — a plain absolute `import b` is never
resolved against the file map — so it does not report exactly one import
error for `a.py` as claimed. -/
theorem import_round_trip_cex :
    validate_template pyParse [("a.py", "import b")] = [] ∧
    (validate_template pyParse [("a.py", "import b")]).countP
        (fun e => e.error_type == "import" && e.file_path == "a.py") ≠ 1 := by
  constructor
  · decide
  · decide

/-- C2 (amended): the validator reports zero errors for
`{"a.py": "import b"}`, with or without `b.py`, because absolute imports
outside `tools/` are not checked; the import round trip does hold for the
forms the validator does check, e.g. `from tools.b import x` inside a
`tools/` file: one import error for `tools/a.py` when `tools/b.py` is
missing, and none once it is added. -/
theorem import_round_trip_amended :
    validate_template pyParse [("a.py", "import b")] = [] ∧
    validate_template pyParse [("a.py", "import b"), ("b.py", "x = 1")] = [] ∧
    (validate_template pyParse [("tools/a.py", "from tools.b import x")]).map
        (fun e => (e.file_path, e.error_type)) = [("tools/a.py", "import")] ∧
    validate_template pyParse
        [("tools/a.py", "from tools.b import x"), ("tools/b.py", "x = 1")] = [] := by
  refine ⟨by decide, by decide, by decide, by decide⟩

/-! ### Claim C6: syntax errors short-circuit import checking per file -/

/-- C6: if the parse of a file raises a `SyntaxError`, `validate_code` returns
exactly that one syntax error — in particular no import-kind error is emitted
for that file; if the parse succeeds, the imports of the file are checked; and
validation of a file consults the rest of the map only through its key set, so
the (possibly syntax-broken) content of another file never affects it. -/
theorem syntax_short_circuit (parse : String → ParseResult) (fp code : String)
    (tmpl : TemplateCode) :
    (∀ m l, parse code = .syntaxError m l →
        validate_code parse fp code tmpl = [⟨fp, "syntax", m, l⟩]) ∧
    (∀ nodes, parse code = .ok nodes →
        validate_code parse fp code tmpl = validate_imports parse fp code tmpl) ∧
    (∀ tmpl2 : TemplateCode, tmpl.map Prod.fst = tmpl2.map Prod.fst →
        validate_code parse fp code tmpl = validate_code parse fp code tmpl2) := by
  refine ⟨?_, ?_, ?_⟩
  · intro m l h
    simp [validate_code, validate_syntax, h]
  · intro nodes h
    simp [validate_code, validate_syntax, h]
  · intro tmpl2 h
    exact validate_code_keysOnly parse fp code h

/-- C6 witness: a concrete unclosed parenthesis yields exactly the syntax
error and nothing else. -/
theorem syntax_short_circuit_witness :
    validate_code pyParse "a.py" "def f(" [("a.py", "def f(")] =
      [⟨"a.py", "syntax", "\x27(\x27 was never closed", some 1⟩] :=
  (syntax_short_circuit pyParse "a.py" "def f(" [("a.py", "def f(")]).1
    "\x27(\x27 was never closed" (some 1) rfl

/-! ### Claim C7: validator totality at the public interface -/

/-- C7: `validate_template` is a total function: the empty map validates to
the empty list, an entry whose path does not end in `.py` contributes no
errors (skipped, not errored), and a non-`SyntaxError` crash of the parser on
a file is converted into a single reported error for that file rather than
propagated. -/
theorem validator_totality (parse : String → ParseResult)
    (tmpl rest : TemplateCode) (fp code : String) :
    validate_template parse [] = [] ∧
    (strEnds fp ".py" = false →
        validateTemplateAux parse tmpl ((fp, code) :: rest) =
          validateTemplateAux parse tmpl rest) ∧
    (∀ m, parse code = .crash m →
        validate_code parse fp code tmpl =
          [⟨fp, "syntax", "Unexpected error: " ++ m, none⟩]) := by
  refine ⟨rfl, ?_, ?_⟩
  · intro h
    simp [validateTemplateAux, h]
  · intro m h
    simp [validate_code, validate_syntax, h]

/-- C7 witness: a non-source file is skipped without an error, and a null
byte (a `ValueError`, not a `SyntaxError`, in CPython) becomes one reported
error. -/
theorem validator_totality_witness :
    validateTemplateAux pyParse [("README.md", "hello")] [("README.md", "hello")] = [] ∧
    validate_code pyParse "a.py" "\x00" [] =
      [⟨"a.py", "syntax",
        "Unexpected error: source code string cannot contain null bytes", none⟩] := by
  constructor
  · have h := (validator_totality pyParse [("README.md", "hello")] []
      "README.md" "hello").2.1 (by decide)
    rw [h]
    rfl
  · exact (validator_totality pyParse [] [] "a.py" "\x00").2.2
      "source code string cannot contain null bytes" rfl

/-! ### Claim C8: ordering of validation errors -/

/-- C8 counterexample: `validate_template` iterates the map in insertion
order, so for a map inserted as `b.py` then `a.py` (both with syntax errors)
the reported file paths come out `["b.py", "a.py"]`, which is not sorted by
file path. -/
theorem error_order_cex :
    ((validate_template pyParse [("b.py", "def f("), ("a.py", "def g(")]).map
        (fun e => e.file_path)) = ["b.py", "a.py"] ∧
    strLe "b.py" "a.py" = false := by
  constructor
  · decide
  · decide

/-- C8 (amended): the error list is the per-file error lists concatenated in
the insertion order of the map (each file validated against the whole snapshot,
non-`.py` entries contributing nothing) — not sorted by file path.  Each call
is a pure function of the snapshot, so repeated calls agree definitionally. -/
theorem error_order_amended (parse : String → ParseResult) (t : TemplateCode) :
    validate_template parse t =
      (t.map (fun e =>
        if strEnds e.1 ".py" then validate_code parse e.1 e.2 t
        else [])).flatten :=
  validateTemplateAux_eq_flatten parse t t

/-! ### Concrete session fixtures -/

/-- A session parked at the `prompt` pause (the state
`_wait_for_prompt` leaves behind). -/
def promptParkedState : ForgeState :=
  { session_id := "sess-1", user_message := "", chat_history := [],
    selected_tools := [], agent_config := ⟨"default_user", "", false, ""⟩,
    generated_tools := [], logic_code := "", agent_id := "",
    current_step := "waiting_for_prompt", waiting_for_input := true,
    waiting_stage := "prompt", template_code := [], code_errors := [],
    user_clarifications := [], tool_changes := ⟨[], [], ""⟩,
    agent_dir_path := "", custom_tool_requirements := "", finalize := false,
    docker_tag := "" }

/-- A registry whose platform directory holds a single tool file `x.py`. -/
def toolReviewReg : ToolRegistry := ⟨[("x", "print(1)")], []⟩

/-! ### Claim C1: out-of-order submit_tools -/

/-- C1 counterexample: with the session parked at `pause_kind = prompt`,
`handle_submit_tools` is not rejected: it overwrites `selected_tools` and
changes the session state instead of leaving it unchanged (no "out of order"
check exists anywhere in the handler). -/
theorem submit_tools_at_prompt_cex :
    promptParkedState.waiting_stage = "prompt" ∧
    promptParkedState.waiting_for_input = true ∧
    (handle_submit_tools none ⟨[], []⟩ promptParkedState
        [⟨"X", "print(1)", ""⟩]).selected_tools = [⟨"X", "print(1)", ""⟩] ∧
    handle_submit_tools none ⟨[], []⟩ promptParkedState [⟨"X", "print(1)", ""⟩] ≠
      promptParkedState := by
  refine ⟨rfl, rfl, by decide, by decide⟩

/-- C1 (amended): `handle_submit_tools` performs no out-of-order check at
all: whatever pause the session is parked at, the submission is applied —
`selected_tools` is overwritten, the tool stages run, and the session is
re-parked at the `custom_tools` or `prompt` pause. -/
theorem submit_tools_unconditional (base : Option String) (reg : ToolRegistry)
    (s : ForgeState) (tools : List Tool) :
    (handle_submit_tools base reg s tools).selected_tools = tools ∧
    (handle_submit_tools base reg s tools).waiting_for_input = true ∧
    ((handle_submit_tools base reg s tools).waiting_stage = "custom_tools" ∨
      (handle_submit_tools base reg s tools).waiting_stage = "prompt") := by
  unfold handle_submit_tools wait_for_custom_tools wait_for_prompt
    add_platform_tools update_tools_state should_wait_for_custom_tools
  by_cases h : s.agent_config.wants_custom_tools <;> simp [h]

/-! ### Claim C3: the confirmation question -/

/-- An oracle reply that itself contains the literal confirmation question,
followed by a further question. -/
def oracleContentCex : String :=
  "questions:\nIs everything in order to continue?\nWhat is your preferred blockchain?"

/-- C3 counterexample: when the oracle output already contains the literal
confirmation question followed by another question, substring-containment
dedup suppresses the append and the confirmation is *not* the last element
of `user_clarifications`. -/
theorem confirmation_last_cex :
    ((handle_submit_prompt oracleContentCex promptParkedState
        "build my agent").user_clarifications.map (fun qa => qa.question)) =
      ["Is everything in order to continue?",
        "What is your preferred blockchain?"] ∧
    ((handle_submit_prompt oracleContentCex promptParkedState
        "build my agent").user_clarifications.getLast?.map
          (fun qa => qa.question)) ≠ some confirmationQuestion := by
  refine ⟨by decide, by decide⟩

/-- C3 (amended): dedup of the confirmation question is literal substring
containment against the space-join of the already-collected questions — never
semantic — so whenever the collected questions do not literally contain it,
the confirmation question is appended and is the last element. -/
theorem confirmation_appended_amended (content : String) (s : ForgeState)
    (prompt : String)
    (h : strContains (strJoin ' ' (extractQuestions content))
        confirmationQuestion = false) :
    ((handle_submit_prompt content s prompt).user_clarifications.map
        (fun qa => qa.question)) =
      extractQuestions content ++ [confirmationQuestion] := by
  unfold handle_submit_prompt wait_for_clarification clarify_intent
    update_prompt_state
  simp only [h, Bool.not_false, if_true]
  have hne : (extractQuestions content ++ [confirmationQuestion]).isEmpty = false := by
    cases extractQuestions content <;> rfl
  simp [hne]
  split <;>
    · simp only [List.map_append, List.map_map, List.map_cons, List.map_nil]
      show List.map (fun q : String => q) (extractQuestions content) ++
          [confirmationQuestion] =
        extractQuestions content ++ [confirmationQuestion]
      rw [List.map_id' (extractQuestions content)]

/-- C3 witness: an oracle reply whose own questions do not contain the
confirmation text gets it appended as the last question. -/
theorem confirmation_appended_witness :
    ((handle_submit_prompt "questions:\nWhat chain do you want to use?"
        promptParkedState "p").user_clarifications.map (fun qa => qa.question)) =
      extractQuestions "questions:\nWhat chain do you want to use?" ++
        [confirmationQuestion] :=
  confirmation_appended_amended "questions:\nWhat chain do you want to use?"
    promptParkedState "p" (by decide)

/-! ### Claim C4: idempotent finalize -/

/-- C4: `handle_finalize_agent` only sets `finalize`, `current_step` and
`waiting_for_input` to constants (every registration side effect in
`_finalize_agent` is commented out in the source), so running it twice equals
running it once and the workspace file map is untouched. -/
theorem finalize_idempotent (s : ForgeState) :
    handle_finalize_agent (handle_finalize_agent s) = handle_finalize_agent s ∧
    (handle_finalize_agent s).template_code = s.template_code := by
  cases s
  exact ⟨rfl, rfl⟩

/-! ### Claim C5: tool add/remove idempotence -/

/-- A session whose pending tool changes are `{add: ["x"], remove: []}`. -/
def addXState : ForgeState :=
  { promptParkedState with tool_changes := ⟨["x"], [], "Tool review completed"⟩ }

/-- C5 counterexample: applying `{add: ["x"], remove: []}` twice appends the
registry record for `x` twice — two entries named `x` in `selected_tools`,
not one — and the workspace file map gains no `tools/x.py` key at all. -/
theorem tool_add_twice_cex :
    ((apply_tool_changes (fun _ => "") toolReviewReg
        (apply_tool_changes (fun _ => "") toolReviewReg
          addXState)).selected_tools.countP (fun t => t.name == "x")) = 2 ∧
    ((apply_tool_changes (fun _ => "") toolReviewReg
        (apply_tool_changes (fun _ => "") toolReviewReg
          addXState)).template_code.countP (fun e => e.1 == "tools/x.py")) = 0 := by
  refine ⟨by decide, by decide⟩

/-- One application of `{add: [x], remove: []}`: the matching registry record
is appended to `selected_tools`; the workspace file map is not modified. -/
theorem apply_tool_changes_add_once (docOf : String → String)
    (reg : ToolRegistry) (s : ForgeState) (x : String) (t : Tool)
    (hadd : s.tool_changes.add = [x]) (hrem : s.tool_changes.remove = [])
    (hfind : (list_tools docOf reg "").find?
        (fun u => strLower u.name == strLower x) = some t) :
    apply_tool_changes docOf reg s =
      { s with selected_tools := s.selected_tools ++ [t],
               current_step := "tool_changes_applied" } := by
  unfold apply_tool_changes
  simp [hadd, hrem, hfind]

/-- C5 (amended): each application of `{add: [x], remove: []}` appends one
more copy of the registry record to `selected_tools` (no overwrite, no
dedup) and never touches the workspace file map; applying it twice therefore
yields two entries, not one. -/
theorem tool_add_twice_amended (docOf : String → String) (reg : ToolRegistry)
    (s : ForgeState) (x : String) (t : Tool)
    (hadd : s.tool_changes.add = [x]) (hrem : s.tool_changes.remove = [])
    (hfind : (list_tools docOf reg "").find?
        (fun u => strLower u.name == strLower x) = some t) :
    (apply_tool_changes docOf reg s).selected_tools = s.selected_tools ++ [t] ∧
    (apply_tool_changes docOf reg s).template_code = s.template_code ∧
    (apply_tool_changes docOf reg
        (apply_tool_changes docOf reg s)).selected_tools =
      s.selected_tools ++ [t, t] := by
  have h1 := apply_tool_changes_add_once docOf reg s x t hadd hrem hfind
  have h2 := apply_tool_changes_add_once docOf reg
    { s with selected_tools := s.selected_tools ++ [t],
             current_step := "tool_changes_applied" } x t hadd hrem hfind
  rw [h1]
  refine ⟨rfl, rfl, ?_⟩
  rw [h2]
  simp

/-- C5 witness: the concrete registry with platform tool `x`. -/
theorem tool_add_twice_witness :
    (apply_tool_changes (fun _ => "") toolReviewReg addXState).selected_tools =
      addXState.selected_tools ++ [⟨"x", "print(1)", ""⟩] :=
  (tool_add_twice_amended (fun _ => "") toolReviewReg addXState "x"
    ⟨"x", "print(1)", ""⟩ rfl rfl (by decide)).1

/-! ### Helper lemmas about create_session and get_tool_code -/

theorem create_session_of_fresh (now fresh : String) (b : SessionBook)
    (u : String)
    (h : ∀ e, dictFind b.user_sessions u = some e →
        (e != "" && dictHasKey b.session_metadata e) = false) :
    create_session now fresh b u =
      (fresh,
        { user_sessions := dictInsert b.user_sessions u fresh,
          session_metadata :=
            dictInsert b.session_metadata fresh ⟨u, now, now⟩ }) := by
  unfold create_session
  split
  · rename_i existing heq
    rw [h existing heq]
    rfl
  · rfl

theorem create_session_of_existing (now fresh : String) (b : SessionBook)
    (u e : String) (hfind : dictFind b.user_sessions u = some e)
    (he : e ≠ "") (hmeta : dictHasKey b.session_metadata e = true) :
    create_session now fresh b u =
      (e,
        { b with session_metadata :=
            (dictUpdate b.session_metadata e
              (fun m => { m with last_activity := now })) }) := by
  unfold create_session
  have hc : (e != "" && dictHasKey b.session_metadata e) = true := by
    simp [he, hmeta]
  split
  · rename_i existing heq
    rw [hfind] at heq
    cases heq
    rw [hc]
    rfl
  · rename_i heq
    rw [hfind] at heq
    cases heq

theorem get_tool_code_of_platform (r : ToolRegistry) (name : String)
    (f : String × String)
    (hfp : r.platform_tools.find?
        (fun f => f.1 == name && f.1 != "__init__") = some f) :
    get_tool_code r name = .ok f.2 := by
  unfold get_tool_code
  rw [hfp]

theorem get_tool_code_of_temp (r : ToolRegistry) (name : String) (t : Tool)
    (hfp : r.platform_tools.find?
        (fun f => f.1 == name && f.1 != "__init__") = none)
    (hft : (regTempAll r).find? (fun t => t.name == name) = some t) :
    get_tool_code r name = .ok t.code := by
  unfold get_tool_code
  rw [hfp, hft]

theorem get_tool_code_of_missing (r : ToolRegistry) (name : String)
    (hfp : r.platform_tools.find?
        (fun f => f.1 == name && f.1 != "__init__") = none)
    (hft : (regTempAll r).find? (fun t => t.name == name) = none) :
    get_tool_code r name = .error ("Tool " ++ name ++ " not found") := by
  unfold get_tool_code
  rw [hfp, hft]

/-! ### Claim C9: one session per user -/

/-- C9: `create_session` is stable.  With a non-empty fresh id (as
`str(uuid.uuid4())` always is): calling it twice in a row for the same user
returns the same session id; after a call the user maps to exactly the
returned id; when the mapped session id of the user is truthy and still has
metadata, that id is returned and the user-to-session map is untouched; and
the user-to-session map never acquires duplicate user keys. -/
theorem create_session_stable (b : SessionBook) (u f1 f2 n1 n2 : String)
    (hf : f1 ≠ "") :
    ((create_session n2 f2 (create_session n1 f1 b u).2 u).1 =
      (create_session n1 f1 b u).1) ∧
    (get_user_session (create_session n1 f1 b u).2 u =
      some (create_session n1 f1 b u).1) ∧
    (∀ e, dictFind b.user_sessions u = some e → e ≠ "" →
        dictHasKey b.session_metadata e = true →
        (create_session n1 f1 b u).1 = e ∧
        ((create_session n1 f1 b u).2).user_sessions = b.user_sessions) ∧
    ((b.user_sessions.map Prod.fst).Nodup →
      (((create_session n1 f1 b u).2).user_sessions.map Prod.fst).Nodup) := by
  by_cases hex : ∃ e, dictFind b.user_sessions u = some e ∧ e ≠ "" ∧
      dictHasKey b.session_metadata e = true
  · obtain ⟨e, hfind, he, hmeta⟩ := hex
    have h1 := create_session_of_existing n1 f1 b u e hfind he hmeta
    have hmeta2 : dictHasKey
        (dictUpdate b.session_metadata e
          (fun m => { m with last_activity := n1 })) e = true := by
      rw [dictHasKey_dictUpdate]
      exact hmeta
    have h2 := create_session_of_existing n2 f2
      { b with session_metadata :=
          (dictUpdate b.session_metadata e
            (fun m => { m with last_activity := n1 })) } u e hfind he hmeta2
    refine ⟨?_, ?_, ?_, ?_⟩
    · rw [h1, h2]
    · rw [h1]
      exact hfind
    · intro e' hfind' _ _
      rw [hfind] at hfind'
      cases hfind'
      rw [h1]
      exact ⟨rfl, rfl⟩
    · intro hnd
      rw [h1]
      exact hnd
  · have hcond : ∀ e, dictFind b.user_sessions u = some e →
        (e != "" && dictHasKey b.session_metadata e) = false := by
      intro e hfind
      by_cases he : e = ""
      · simp [he]
      · have hm : dictHasKey b.session_metadata e = false := by
          rw [← Bool.not_eq_true]
          intro hmt
          exact hex ⟨e, hfind, he, hmt⟩
        simp [hm]
    have h1 := create_session_of_fresh n1 f1 b u hcond
    have hfind2 : dictFind (dictInsert b.user_sessions u f1) u = some f1 :=
      dictFind_dictInsert_self b.user_sessions u f1
    have hmeta2 : dictHasKey
        (dictInsert b.session_metadata f1 ⟨u, n1, n1⟩) f1 = true :=
      dictHasKey_dictInsert_self b.session_metadata f1 ⟨u, n1, n1⟩
    have h2 := create_session_of_existing n2 f2
      { user_sessions := dictInsert b.user_sessions u f1,
        session_metadata := dictInsert b.session_metadata f1 ⟨u, n1, n1⟩ }
      u f1 hfind2 hf hmeta2
    refine ⟨?_, ?_, ?_, ?_⟩
    · rw [h1, h2]
    · rw [h1]
      exact hfind2
    · intro e hfind' he' hmeta'
      have := hcond e hfind'
      simp [he', hmeta'] at this
    · intro hnd
      rw [h1]
      exact nodup_keys_dictInsert b.user_sessions u f1 hnd

/-- C9 witness: a user with no session yet gets a fresh one, and an immediate
second call returns the same id. -/
theorem create_session_stable_witness :
    (create_session "t2" "id-2" (create_session "t1" "id-1" ⟨[], []⟩ "alice").2
        "alice").1 =
      (create_session "t1" "id-1" ⟨[], []⟩ "alice").1 :=
  (create_session_stable ⟨[], []⟩ "alice" "id-1" "id-2" "t1" "t2"
    (by decide)).1

/-! ### Claim C10: tool registry lookup precedence -/

/-- A platform tools directory holding only a (pathological) `__init__.py`. -/
def initOnlyReg : ToolRegistry := ⟨[("__init__", "INIT")], []⟩

/-- C10 counterexample: `__init__.py` is skipped by the platform search, so
for the name `__init__` a matching-stem `.py` file exists yet `get_tool_code`
raises `ValueError` instead of returning its content. -/
theorem get_tool_code_cex :
    ("__init__", "INIT") ∈ initOnlyReg.platform_tools ∧
    get_tool_code initOnlyReg "__init__" =
      .error "Tool __init__ not found" := by
  refine ⟨by decide, rfl⟩

/-- C10 (amended): for every name other than `__init__`, a platform file with
matching stem wins (even when temp tools also match); with no platform match,
the first temp tool of matching name is returned; and the `ValueError` is
raised exactly when neither a platform file (other than `__init__.py`) nor a
temp tool matches. -/
theorem get_tool_code_spec (r : ToolRegistry) (name : String) :
    (name ≠ "__init__" → (∃ c, (name, c) ∈ r.platform_tools) →
        ∃ c, get_tool_code r name = .ok c ∧ (name, c) ∈ r.platform_tools) ∧
    ((∀ c, (name, c) ∉ r.platform_tools) →
        (∃ t ∈ regTempAll r, t.name = name) →
        ∃ t, t ∈ regTempAll r ∧ t.name = name ∧
          get_tool_code r name = .ok t.code) ∧
    ((get_tool_code r name = .error ("Tool " ++ name ++ " not found")) ↔
      ((∀ c, (name, c) ∈ r.platform_tools → name = "__init__") ∧
        (∀ t ∈ regTempAll r, t.name ≠ name))) := by
  refine ⟨?_, ?_, ?_⟩
  · intro hne hex
    obtain ⟨c, hc⟩ := hex
    cases hfp : r.platform_tools.find?
        (fun f => f.1 == name && f.1 != "__init__") with
    | some f =>
        obtain ⟨fa, fb⟩ := f
        have hmem := List.mem_of_find?_eq_some hfp
        have hp := List.find?_some hfp
        rw [Bool.and_eq_true] at hp
        have hf1 : fa = name := by simpa using hp.1
        subst hf1
        exact ⟨fb, get_tool_code_of_platform r fa (fa, fb) hfp, hmem⟩
    | none =>
        exfalso
        have hall := List.find?_eq_none.mp hfp (name, c) hc
        simp [hne] at hall
  · intro hnop hex
    have hfp : r.platform_tools.find?
        (fun f => f.1 == name && f.1 != "__init__") = none := by
      rw [List.find?_eq_none]
      intro x hx
      obtain ⟨xa, xb⟩ := x
      intro hpx
      rw [Bool.and_eq_true] at hpx
      have hxa : xa = name := by simpa using hpx.1
      subst hxa
      exact hnop xb hx
    cases hft : (regTempAll r).find? (fun t => t.name == name) with
    | some t =>
        have hmem := List.mem_of_find?_eq_some hft
        have hp := List.find?_some hft
        have hname : t.name = name := by simpa using hp
        exact ⟨t, hmem, hname, get_tool_code_of_temp r name t hfp hft⟩
    | none =>
        exfalso
        obtain ⟨t, ht, hname⟩ := hex
        have hall := List.find?_eq_none.mp hft t ht
        simp [hname] at hall
  · constructor
    · intro herr
      cases hfp : r.platform_tools.find?
          (fun f => f.1 == name && f.1 != "__init__") with
      | some f =>
          rw [get_tool_code_of_platform r name f hfp] at herr
          exact absurd herr (by simp)
      | none =>
          cases hft : (regTempAll r).find? (fun t => t.name == name) with
          | some t =>
              rw [get_tool_code_of_temp r name t hfp hft] at herr
              exact absurd herr (by simp)
          | none =>
              constructor
              · intro c hc
                by_contra hne
                have hall := List.find?_eq_none.mp hfp (name, c) hc
                simp [hne] at hall
              · intro t ht hname
                have hall := List.find?_eq_none.mp hft t ht
                simp [hname] at hall
    · intro ⟨hpl, htmp⟩
      have hfp : r.platform_tools.find?
          (fun f => f.1 == name && f.1 != "__init__") = none := by
        rw [List.find?_eq_none]
        intro x hx
        obtain ⟨xa, xb⟩ := x
        intro hpx
        rw [Bool.and_eq_true] at hpx
        have hxa : xa = name := by simpa using hpx.1
        subst hxa
        have := hpl xb hx
        simp [this] at hpx
      have hft : (regTempAll r).find? (fun t => t.name == name) = none := by
        rw [List.find?_eq_none]
        intro t ht
        simp [htmp t ht]
      exact get_tool_code_of_missing r name hfp hft

/-- C10 witness: the platform file `x.py` wins, and with an empty platform
directory a temp tool of matching name is returned. -/
theorem get_tool_code_spec_witness :
    (∃ c, get_tool_code toolReviewReg "x" = .ok c ∧
      ("x", c) ∈ toolReviewReg.platform_tools) ∧
    (∃ t, t ∈ regTempAll ⟨[], [("u1", [⟨"y", "pass", ""⟩])]⟩ ∧ t.name = "y" ∧
      get_tool_code ⟨[], [("u1", [⟨"y", "pass", ""⟩])]⟩ "y" = .ok t.code) :=
  ⟨(get_tool_code_spec toolReviewReg "x").1 (by decide) ⟨"print(1)", by decide⟩,
   (get_tool_code_spec ⟨[], [("u1", [⟨"y", "pass", ""⟩])]⟩ "y").2.1
     (fun c h => by simp at h) ⟨⟨"y", "pass", ""⟩, by decide, rfl⟩⟩

end Forge
